import Mathlib

/-!
# CARE-NEST backend: authentication and payment-intent handlers

A shallow embedding of `server/server.js`: the `auth` middleware, the
`/api/create-payment-intent`, `/api/auth/register`, `/api/auth/login` and
`/api/auth/me` handlers, the `userSchema` pre-save hook and `comparePassword`.

External libraries (`stripe`, `jsonwebtoken`, `bcryptjs`, `mongoose`) are
parameters of the handlers.  The Mongo collection behind `User` is a list of documents that the
handlers read and extend.  JavaScript numbers are binary64 values with an
explicit sign, integer significand and binary exponent.
-/

namespace CareNest

/-! ## JavaScript numbers -/

/-- A JavaScript Number: a finite value `± mant · 2 ^ exp`, an infinity, or NaN. -/
inductive JSNumber where
  | finite (neg : Bool) (mant : ℕ) (exp : ℤ)
  | infinity (neg : Bool)
  | nan
  deriving DecidableEq, Repr

namespace JSNumber

/-- The exact rational value of a finite number. -/
def finiteValue (neg : Bool) (mant : ℕ) (exp : ℤ) : ℚ :=
  (if neg then -1 else 1) * (mant : ℚ) * (2 : ℚ) ^ exp

/-- The exact value of a number, when it is finite. -/
def toRat? : JSNumber → Option ℚ
  | finite neg mant exp => some (finiteValue neg mant exp)
  | infinity _ => none
  | nan => none

/-- Number of binary digits of `n`, by at most `fuel` halvings. -/
def bitLengthAux : ℕ → ℕ → ℕ
  | 0, _ => 0
  | fuel + 1, n => if n = 0 then 0 else bitLengthAux fuel (n / 2) + 1

/-- Number of binary digits of `n` (`0` for `n = 0`). -/
def bitLength (n : ℕ) : ℕ := bitLengthAux n n

/-- Round `mant / 2 ^ shift` to the nearest integer, ties to the even one. -/
def roundShiftEven (mant shift : ℕ) : ℕ :=
  if shift = 0 then mant
  else
    let q := mant / 2 ^ shift
    let r := mant % 2 ^ shift
    let half := 2 ^ (shift - 1)
    if r < half then q
    else if half < r then q + 1
    else if q % 2 = 0 then q else q + 1

/-- Round the exact value `± mant · 2 ^ exp` to binary64 (round to nearest, ties to
even): at most 53 significant bits, exponent of the last bit at least `-1074`,
overflow to an infinity from `2 ^ 1024` on. -/
def roundToDouble (neg : Bool) (mant : ℕ) (exp : ℤ) : JSNumber :=
  let shift : ℕ := (max ((bitLength mant : ℤ) - 53) (-1074 - exp)).toNat
  let m := roundShiftEven mant shift
  let e := exp + shift
  if 1024 < (bitLength m : ℤ) + e then infinity neg else finite neg m e

/-- The operator `a * b` on Numbers. -/
def mul : JSNumber → JSNumber → JSNumber
  | nan, _ => nan
  | _, nan => nan
  | infinity s, infinity t => infinity (xor s t)
  | infinity s, finite t n _ => if n = 0 then nan else infinity (xor s t)
  | finite s m _, infinity t => if m = 0 then nan else infinity (xor s t)
  | finite s m e, finite t n f => roundToDouble (xor s t) (m * n) (e + f)

/-- The operator `a < b` on Numbers (`false` when either side is NaN). -/
def lt : JSNumber → JSNumber → Bool
  | nan, _ => false
  | _, nan => false
  | infinity s, infinity t => s && !t
  | infinity s, finite _ _ _ => s
  | finite _ _ _, infinity t => !t
  | finite s m e, finite t n f => decide (finiteValue s m e < finiteValue t n f)

/-- The coercion `ToBoolean` on Numbers: `+0`, `-0` and NaN are falsy. -/
def toBoolean : JSNumber → Bool
  | nan => false
  | infinity _ => true
  | finite _ mant _ => decide (mant ≠ 0)

/-- The function `Math.round`: the nearest integer, halves going towards `+∞`. -/
def mathRound : JSNumber → JSNumber
  | nan => nan
  | infinity s => infinity s
  | finite neg mant exp =>
    if 0 ≤ exp then finite neg mant exp
    else
      let d : ℤ := 2 ^ (-exp).toNat
      let n : ℤ := (2 * (if neg then -(mant : ℤ) else (mant : ℤ)) + d) / (2 * d)
      finite (if n = 0 then neg else decide (n < 0)) n.natAbs 0

/-- The literal `1`. -/
def one : JSNumber := finite false 1 0

/-- The literal `100`. -/
def hundred : JSNumber := finite false 100 0

/-- The number is not NaN and its value is at most `q` (`-∞` is below every `q`). -/
def LeRat : JSNumber → ℚ → Prop
  | finite neg mant exp, q => finiteValue neg mant exp ≤ q
  | infinity s, _ => s = true
  | nan, _ => False

/-- The number is not NaN and its value is at least `q` (`+∞` is above every `q`). -/
def GeRat : JSNumber → ℚ → Prop
  | finite neg mant exp, q => q ≤ finiteValue neg mant exp
  | infinity s, _ => s = false
  | nan, _ => False

/-- The number is not NaN and its value is above `q`. -/
def GtRat : JSNumber → ℚ → Prop
  | finite neg mant exp, q => q < finiteValue neg mant exp
  | infinity s, _ => s = false
  | nan, _ => False

end JSNumber

/-! ## HTTP responses -/

/-- A user document of the `User` model.  `password` is `none` on a document read
with the projection `select('-password')`; stored documents always carry it. -/
structure UserDoc where
  _id : String
  name : String
  email : String
  password : Option String
  phone : String
  userType : String
  createdAt : ℕ
  updatedAt : ℕ
  deriving DecidableEq, Repr

/-- The JSON object passed to `res.json`; absent keys are `none`. -/
structure Body where
  message : Option String := none
  token : Option String := none
  user : Option UserDoc := none
  clientSecret : Option String := none
  error : Option String := none
  deriving DecidableEq, Repr

/-- What a handler sends: `res.status(status).json(body)`. -/
structure Response where
  status : ℕ
  body : Body
  deriving DecidableEq, Repr

/-! ## `POST /api/create-payment-intent` -/

/-- The argument of `stripe.paymentIntents.create`. -/
structure PaymentIntentParams where
  amount : JSNumber
  currency : String
  automatic_payment_methods_enabled : Bool
  deriving DecidableEq, Repr

/-- The part of the created intent the handler reads. -/
structure PaymentIntent where
  client_secret : String
  deriving DecidableEq, Repr

/-- The payment processor: `create` returns an intent or throws. -/
structure Stripe where
  create : PaymentIntentParams → Except String PaymentIntent

/-- Result of the payment handler: the response and the processor calls made. -/
structure PaymentOutcome where
  response : Response
  calls : List PaymentIntentParams

/-- The test `!amount || amount < 1` on the `amount` field of the body (absent, or a
JSON number). -/
def invalidAmount : Option JSNumber → Bool
  | none => true
  | some a => !a.toBoolean || a.lt JSNumber.one

/-- The handler of `POST /api/create-payment-intent`, on the `amount` field of the
parsed body: absent, or a JSON number (amounts of another JSON type are outside this
model). -/
def createPaymentIntent (stripe : Stripe) (amount : Option JSNumber) : PaymentOutcome :=
  match amount with
  | none => ⟨⟨400, { message := some "Invalid amount" }⟩, []⟩
  | some a =>
    if invalidAmount (some a) then ⟨⟨400, { message := some "Invalid amount" }⟩, []⟩
    else
      let params : PaymentIntentParams :=
        ⟨(a.mul JSNumber.hundred).mathRound, "inr", true⟩
      match stripe.create params with
      | .ok paymentIntent =>
        ⟨⟨200, { clientSecret := some paymentIntent.client_secret }⟩, [params]⟩
      | .error error =>
        ⟨⟨500, { message := some "Payment failed", error := some error }⟩, [params]⟩

/-- A processor that accepts every request. -/
def stripeOk : Stripe := ⟨fun _ => .ok ⟨"pi_1_secret_2"⟩⟩

/-! ## Strings and configuration -/

/-- First-occurrence replacement on character lists. -/
def replaceFirst (pattern replacement : List Char) : List Char → List Char
  | [] => if pattern = [] then replacement else []
  | c :: cs =>
    if pattern.isPrefixOf (c :: cs) then replacement ++ (c :: cs).drop pattern.length
    else c :: replaceFirst pattern replacement cs

/-- The method `s.replace(pattern, replacement)` with a string pattern: only the
first occurrence is replaced (the replacement is taken literally). -/
def jsReplace (s pattern replacement : String) : String :=
  ⟨replaceFirst pattern.data replacement.data s.data⟩

/-- The test `!v` on a value that is `undefined` or a string. -/
def falsy : Option String → Bool
  | none => true
  | some s => decide (s = "")

/-- The expression `v || fallback` on a value that is `undefined` or a string. -/
def orDefault (v : Option String) (fallback : String) : String :=
  match v with
  | none => fallback
  | some s => if s = "" then fallback else s

/-- The variables of `process.env` read by the handlers. -/
structure Env where
  JWT_SECRET : Option String
  JWT_EXPIRES_IN : Option String
  deriving DecidableEq, Repr

/-- The expression `process.env.JWT_SECRET || 'fallback-secret'`. -/
def jwtSecret (env : Env) : String := orDefault env.JWT_SECRET "fallback-secret"

/-- The expression `process.env.JWT_EXPIRES_IN || '7d'`. -/
def jwtExpiresIn (env : Env) : String := orDefault env.JWT_EXPIRES_IN "7d"

/-! ## Libraries -/

/-- The token payload `{ userId }`. -/
structure JwtPayload where
  userId : String
  deriving DecidableEq, Repr

/-- The content of a signed token: the payload, the claims `iat` and `exp` (seconds)
and the signature. -/
structure Token where
  payload : JwtPayload
  iat : ℕ
  exp : ℕ
  signature : ℕ
  deriving DecidableEq, Repr

/-- The library `jsonwebtoken`, up to its primitives: `timespan` reads an `expiresIn`
string as the whole number of seconds added to `iat`, which is `ms(expiresIn) / 1000`
rounded down (`none` when the string is not a timespan, and `jwt.sign` then
throws); `mac` signs payload, `iat` and `exp` under a secret; `encode` and `decode`
are the serialisation of a token as a string. -/
structure Jwt where
  timespan : String → Option ℕ
  mac : String → JwtPayload → ℕ → ℕ → ℕ
  encode : Token → String
  decode : String → Option Token

/-- The call `jwt.sign(payload, secret, { expiresIn })` at the clock `now` (seconds),
`life` being the timespan of `expiresIn`: `iat = now`, `exp = now + life`. -/
def Jwt.sign (jwt : Jwt) (payload : JwtPayload) (secret : String) (life now : ℕ) : String :=
  jwt.encode ⟨payload, now, now + life, jwt.mac secret payload now (now + life)⟩

/-- The call `jwt.verify(token, secret)` at the clock `now`: it throws on a string
that is not a token, on a signature that is not the one of the secret, and on a
token with `now ≥ exp`; otherwise it returns the payload. -/
def Jwt.verify (jwt : Jwt) (token secret : String) (now : ℕ) : Except String JwtPayload :=
  match jwt.decode token with
  | none => .error "jwt malformed"
  | some t =>
    if jwt.mac secret t.payload t.iat t.exp ≠ t.signature then .error "invalid signature"
    else if t.exp ≤ now then .error "jwt expired"
    else .ok t.payload

/-- The library `mongoose`, as far as `findById` needs it: `isObjectId` tells the
strings that cast to an ObjectId. -/
structure Mongoose where
  isObjectId : String → Bool

/-- The library `bcryptjs`: `hash` takes the data, the cost and the salt it draws,
`compare` takes the data and a stored hash. -/
structure Bcrypt where
  hash : String → ℕ → String → String
  compare : String → String → Bool

/-- Contract of the token serialisation: a serialised token is a non-empty string
that decodes to the token it was made from. -/
def Jwt.Codec (jwt : Jwt) : Prop :=
  ∀ t : Token, jwt.encode t ≠ "" ∧ jwt.decode (jwt.encode t) = some t

/-- Contract of `bcryptjs`: a hash matches the data it was made from, and is never
that data itself. -/
structure Bcrypt.Correct (bcrypt : Bcrypt) : Prop where
  compare_hash : ∀ data rounds salt, bcrypt.compare data (bcrypt.hash data rounds salt) = true
  hash_ne : ∀ data rounds salt, bcrypt.hash data rounds salt ≠ data

/-- Binary digits of `n`, lowest first, by at most `fuel` halvings. -/
def natBitsAux : ℕ → ℕ → List Char
  | 0, _ => []
  | fuel + 1, n => if n = 0 then [] else (if n % 2 = 0 then '0' else '1') :: natBitsAux fuel (n / 2)

/-- Binary digits of `n`, lowest first. -/
def natBits (n : ℕ) : List Char := natBitsAux n n

/-- The number with the given binary digits, lowest first. -/
def ofBits : List Char → ℕ
  | [] => 0
  | c :: cs => (if c = '1' then 1 else 0) + 2 * ofBits cs

/-- Cut a character list at its first dot. -/
def splitDot : List Char → Option (List Char × List Char)
  | [] => none
  | c :: cs => if c = '.' then some ([], cs) else (splitDot cs).map (fun p => (c :: p.1, p.2))

/-- The number written by a list of decimal digits, after `acc`. -/
def parseDigits (acc : ℕ) : List Char → Option ℕ
  | [] => some acc
  | c :: cs => if c.isDigit then parseDigits (acc * 10 + (c.toNat - 48)) cs else none

/-- A token format without cryptography, `exp.iat.signature.userId` with the numbers
in binary, and the timespans `7d` and a bare number of milliseconds. -/
def jwtPlain : Jwt where
  timespan := fun e =>
    if e = "7d" then some 604800
    else if e = "" then none
    else (parseDigits 0 e.data).map (fun ms => ms / 1000)
  mac := fun secret payload iat exp =>
    (secret ++ payload.userId).data.foldl (fun h c => (31 * h + c.toNat) % 65521) (iat + exp)
  encode := fun t =>
    ⟨natBits t.exp ++ '.' :: (natBits t.iat ++ '.' :: (natBits t.signature ++
      '.' :: t.payload.userId.data))⟩
  decode := fun s =>
    match splitDot s.data with
    | none => none
    | some (e, r1) =>
      match splitDot r1 with
      | none => none
      | some (i, r2) =>
        match splitDot r2 with
        | none => none
        | some (g, u) => some ⟨⟨⟨u⟩⟩, ofBits i, ofBits e, ofBits g⟩

/-- ObjectIds written as 24 hexadecimal digits. -/
def mongooseHex : Mongoose where
  isObjectId := fun id =>
    decide (id.data.length = 24) && id.data.all (fun c =>
      c.isDigit || (decide (97 ≤ c.toNat) && decide (c.toNat ≤ 102))
        || (decide (65 ≤ c.toNat) && decide (c.toNat ≤ 70)))

/-- A hash format without cryptography: the data behind a `$` sign. -/
def bcryptPlain : Bcrypt where
  hash := fun data _ _ => "$" ++ data
  compare := fun data hash => decide (hash = "$" ++ data)

/-! ## The `User` model -/

/-- The query `User.findOne({ email })`. -/
def findOne (users : List UserDoc) (email : String) : Option UserDoc :=
  users.find? (fun u => decide (u.email = email))

/-- The query `User.findById(id)`: it throws a CastError when `id` does not cast to
an ObjectId, and otherwise returns the document with that `_id`, or `null`. -/
def findById (mongoose : Mongoose) (users : List UserDoc) (id : String) :
    Except String (Option UserDoc) :=
  if mongoose.isObjectId id then .ok (users.find? (fun u => decide (u._id = id)))
  else .error "CastError"

/-- The projection `.select('-password')`. -/
def selectMinusPassword (user : UserDoc) : UserDoc := { user with password := none }

/-- The hook `userSchema.pre('save')`: hash the password when it was modified. -/
def preSave (bcrypt : Bcrypt) (salt : String) (isModifiedPassword : Bool) (doc : UserDoc) :
    UserDoc :=
  if !isModifiedPassword then doc
  else { doc with password := doc.password.map (fun p => bcrypt.hash p 12 salt) }

/-- The method `comparePassword`: `bcrypt.compare` throws on a missing argument. -/
def comparePassword (bcrypt : Bcrypt) (user : UserDoc) (password : Option String) :
    Except String Bool :=
  match password, user.password with
  | some p, some h => .ok (bcrypt.compare p h)
  | _, _ => .error "Illegal arguments"

/-- The document `new User({ name, email, password, phone, userType })`, with the
schema default for `userType`. -/
def newUser (newId name email password phone : String) (userType : Option String) : UserDoc :=
  { _id := newId, name := name, email := email, password := some password, phone := phone,
    userType := userType.getD "user", createdAt := 0, updatedAt := 0 }

/-- Schema validation: the four required strings and the `userType` enum. -/
def validate (doc : UserDoc) : Bool :=
  decide (doc.name ≠ "") && decide (doc.email ≠ "") && !falsy doc.password
    && decide (doc.phone ≠ "") && decide (doc.userType ∈ ["user", "provider"])

/-- The call `user.save()` on a new document whose password was set: validation,
the pre-save hook, timestamps, insertion.  Returns the saved document and the
collection, or throws.  The unique index on `email` is not consulted: the register
handler looks the email up before it saves. -/
def save (bcrypt : Bcrypt) (salt : String) (now : ℕ) (users : List UserDoc) (doc : UserDoc) :
    Except String (UserDoc × List UserDoc) :=
  if !validate doc then .error "ValidationError"
  else
    let hashed := preSave bcrypt salt true doc
    let stored := { hashed with createdAt := now, updatedAt := now }
    .ok (stored, users ++ [stored])

/-! ## Tokens and the `auth` middleware -/

/-- The call `jwt.sign({ userId }, JWT_SECRET || 'fallback-secret',
{ expiresIn: JWT_EXPIRES_IN || '7d' })` of the register and login handlers. -/
def signToken (jwt : Jwt) (env : Env) (userId : String) (now : ℕ) : Except String String :=
  match jwt.timespan (jwtExpiresIn env) with
  | none => .error "expiresIn should be a number of seconds or string representing a timespan"
  | some life => .ok (jwt.sign ⟨userId⟩ (jwtSecret env) life now)

/-- The expression `req.header('Authorization')?.replace('Bearer ', '')`. -/
def extractToken (header : Option String) : Option String :=
  header.map (fun h => jsReplace h "Bearer " "")

/-- What the middleware does with the request: answer it, or attach `req.user` and
call `next()`. -/
inductive AuthOutcome where
  | respond (response : Response)
  | next (user : UserDoc)
  deriving DecidableEq, Repr

/-- The `auth` middleware, on the value of the `Authorization` header.  The `catch`
answers "Invalid token" whether `jwt.verify` or the `findById` lookup throws. -/
def auth (jwt : Jwt) (mongoose : Mongoose) (env : Env) (users : List UserDoc) (now : ℕ)
    (header : Option String) : AuthOutcome :=
  match extractToken header with
  | none => .respond ⟨401, { message := some "No token provided" }⟩
  | some token =>
    if token = "" then .respond ⟨401, { message := some "No token provided" }⟩
    else
      match jwt.verify token (jwtSecret env) now with
      | .error _ => .respond ⟨401, { message := some "Invalid token" }⟩
      | .ok decoded =>
        match findById mongoose users decoded.userId with
        | .error _ => .respond ⟨401, { message := some "Invalid token" }⟩
        | .ok none => .respond ⟨401, { message := some "User not found" }⟩
        | .ok (some user) => .next (selectMinusPassword user)

/-- The route `GET /api/auth/me`: `auth`, then `res.json({ user: req.user })`. -/
def me (jwt : Jwt) (mongoose : Mongoose) (env : Env) (users : List UserDoc) (now : ℕ)
    (header : Option String) : Response :=
  match auth jwt mongoose env users now header with
  | .respond response => response
  | .next user => ⟨200, { user := some user }⟩

/-! ## `POST /api/auth/register` and `POST /api/auth/login` -/

/-- The body of a register request; each field is absent or a string. -/
structure RegisterBody where
  name : Option String
  email : Option String
  password : Option String
  phone : Option String
  userType : Option String
  deriving DecidableEq, Repr

/-- The body of a login request. -/
structure LoginBody where
  email : Option String
  password : Option String
  deriving DecidableEq, Repr

/-- Result of the register handler: the response and the collection afterwards. -/
structure RegisterOutcome where
  response : Response
  users : List UserDoc

/-- The handler of `POST /api/auth/register`.  `newId` is the `_id` given to the new
document and `salt` the salt drawn by `bcrypt.hash`. -/
def register (jwt : Jwt) (bcrypt : Bcrypt) (env : Env) (users : List UserDoc) (now : ℕ)
    (newId salt : String) (body : RegisterBody) : RegisterOutcome :=
  match body.name, body.email, body.password, body.phone with
  | some name, some email, some password, some phone =>
    if falsy (some name) || falsy (some email) || falsy (some password) || falsy (some phone)
    then ⟨⟨400, { message := some "All fields are required" }⟩, users⟩
    else
      match findOne users email with
      | some _ => ⟨⟨400, { message := some "User already exists" }⟩, users⟩
      | none =>
        match save bcrypt salt now users (newUser newId name email password phone body.userType) with
        | .error _ => ⟨⟨500, { message := some "Server error" }⟩, users⟩
        | .ok (user, users') =>
          match signToken jwt env user._id now with
          | .error _ => ⟨⟨500, { message := some "Server error" }⟩, users'⟩
          | .ok token =>
            ⟨⟨201, { message := some "User registered successfully", token := some token,
                     user := some user }⟩, users'⟩
  | _, _, _, _ => ⟨⟨400, { message := some "All fields are required" }⟩, users⟩

/-- The handler of `POST /api/auth/login`. -/
def login (jwt : Jwt) (bcrypt : Bcrypt) (env : Env) (users : List UserDoc) (now : ℕ)
    (body : LoginBody) : Response :=
  match body.email.bind (findOne users) with
  | none => ⟨400, { message := some "Invalid credentials" }⟩
  | some user =>
    match comparePassword bcrypt user body.password with
    | .error _ => ⟨500, { message := some "Server error" }⟩
    | .ok false => ⟨400, { message := some "Invalid credentials" }⟩
    | .ok true =>
      match signToken jwt env user._id now with
      | .error _ => ⟨500, { message := some "Server error" }⟩
      | .ok token =>
        ⟨200, { message := some "Login successful", token := some token, user := some user }⟩

/-! ## Sample data -/

/-- A configuration without `JWT_SECRET` and `JWT_EXPIRES_IN`. -/
def envDefault : Env := ⟨none, none⟩

/-- A configuration with `JWT_EXPIRES_IN=60`, sixty milliseconds. -/
def envShort : Env := ⟨none, some "60"⟩

/-- An ObjectId. -/
def aliceId : String := "65a1b2c3d4e5f60718293a4b"

/-- A complete register request. -/
def aliceBody : RegisterBody :=
  ⟨some "Alice", some "alice@example.com", some "s3cret", some "5550100", none⟩

/-- The document stored for `aliceBody` under `bcryptPlain` with `_id` `aliceId` at
time `5`. -/
def aliceDoc : UserDoc :=
  ⟨aliceId, "Alice", "alice@example.com", some "$s3cret", "5550100", "user", 5, 5⟩

/-- The token `jwtPlain` issues at time `5` for `aliceId` under the fallback secret
and the default lifetime. -/
def aliceToken : String := jwtPlain.sign ⟨aliceId⟩ "fallback-secret" 604800 5

/-! ## Lemmas and theorems -/

set_option maxRecDepth 100000

open JSNumber


theorem finiteValue_natAbs (neg : Bool) (n : ℤ) :
    finiteValue (if n = 0 then neg else decide (n < 0)) n.natAbs 0 = (n : ℚ) := by
  unfold finiteValue
  by_cases h0 : n = 0
  · subst h0; cases neg <;> simp
  · rcases lt_or_gt_of_ne h0 with h | h
    · have h2 : ((n.natAbs : ℕ) : ℚ) = -(n : ℚ) := by
        rw [Nat.cast_natAbs, abs_of_neg h]; push_cast; rfl
      rw [h2]; simp [h0, h]
    · have h2 : ((n.natAbs : ℕ) : ℚ) = (n : ℚ) := by
        rw [Nat.cast_natAbs, abs_of_pos h]
      have h3 : ¬ n < 0 := by omega
      rw [h2]; simp [h0, h3]

theorem mathRound_finite_value (neg : Bool) (mant : ℕ) (exp : ℤ) :
    (mathRound (finite neg mant exp)).toRat?
      = some ((⌊finiteValue neg mant exp + 1 / 2⌋ : ℤ) : ℚ) := by
  unfold mathRound
  by_cases he : 0 ≤ exp
  · simp only [he, if_true, toRat?]
    obtain ⟨k, rfl⟩ := Int.eq_ofNat_of_zero_le he
    have hv : finiteValue neg mant (k : ℤ)
        = (((if neg then -1 else 1) * (mant : ℤ) * 2 ^ k : ℤ) : ℚ) := by
      unfold finiteValue
      cases neg <;> simp [zpow_natCast]
    rw [hv]
    congr 1
    have : ⌊((((if neg then -1 else 1) * (mant : ℤ) * 2 ^ k : ℤ) : ℚ)) + 1 / 2⌋
        = (if neg then -1 else 1) * (mant : ℤ) * 2 ^ k := by
      rw [Int.floor_eq_iff]
      constructor
      · linarith
      · linarith
    rw [this]
  · simp only [he, if_false, toRat?]
    rw [finiteValue_natAbs]
    congr 2
    set k := (-exp).toNat with hk
    have hexp : exp = -(k : ℤ) := by omega
    have hv : finiteValue neg mant exp + 1 / 2
        = (((2 * (if neg then -(mant : ℤ) else (mant : ℤ)) + 2 ^ k : ℤ)) : ℚ)
            / ((2 * 2 ^ k : ℕ) : ℚ) := by
      unfold finiteValue
      rw [hexp, zpow_neg, zpow_natCast]
      have h2 : (2 : ℚ) ^ k ≠ 0 := by positivity
      cases neg <;> (push_cast; field_simp; ring)
    rw [hv, Rat.floor_intCast_div_natCast]
    push_cast
    rfl

theorem invalidAmount_eq_false_iff (a : JSNumber) :
    invalidAmount (some a) = false ↔ a.GeRat 1 := by
  cases a with
  | nan => simp [invalidAmount, toBoolean, GeRat]
  | infinity s => cases s <;> simp [invalidAmount, toBoolean, lt, one, GeRat]
  | finite neg mant exp =>
    simp only [invalidAmount, toBoolean, lt, one, GeRat, Bool.or_eq_false_iff,
      Bool.not_eq_false_eq_eq_true, decide_eq_true_eq, decide_eq_false_iff_not, not_lt]
    have h1 : finiteValue false 1 0 = 1 := by simp [finiteValue]
    rw [h1]
    constructor
    · exact fun h => h.2
    · intro h
      refine ⟨?_, h⟩
      rintro rfl
      simp [finiteValue] at h
      linarith

theorem createPaymentIntent_of_invalid (stripe : Stripe) (amount : Option JSNumber)
    (h : invalidAmount amount = true) :
    createPaymentIntent stripe amount
      = ⟨⟨400, { message := some "Invalid amount" }⟩, []⟩ := by
  cases amount with
  | none => rfl
  | some a => simp [createPaymentIntent, h]

theorem createPaymentIntent_calls_of_valid (stripe : Stripe) (a : JSNumber)
    (h : invalidAmount (some a) = false) :
    (createPaymentIntent stripe (some a)).calls
      = [⟨(a.mul hundred).mathRound, "inr", true⟩] := by
  simp only [createPaymentIntent, h]
  cases stripe.create ⟨(a.mul hundred).mathRound, "inr", true⟩ <;> rfl

/-- C1: when `amount` is missing or is a number at most `0`, the payment handler
answers 400 "Invalid amount" and makes no processor call. -/
theorem createPaymentIntent_rejects_nonpositive (stripe : Stripe)
    (amount : Option JSNumber)
    (h : amount = none ∨ ∃ a, amount = some a ∧ a.LeRat 0) :
    (createPaymentIntent stripe amount).response
        = ⟨400, { message := some "Invalid amount" }⟩
      ∧ (createPaymentIntent stripe amount).calls = [] := by
  have hinv : invalidAmount amount = true := by
    rcases h with rfl | ⟨a, rfl, ha⟩
    · rfl
    · by_contra hc
      have hge : a.GeRat 1 :=
        (invalidAmount_eq_false_iff a).1 (by simpa using hc)
      cases a with
      | nan => exact ha
      | infinity s => simp [LeRat, GeRat] at ha hge; simp [ha] at hge
      | finite neg mant exp =>
        simp only [LeRat, GeRat] at ha hge
        linarith
  rw [createPaymentIntent_of_invalid stripe amount hinv]
  exact ⟨rfl, rfl⟩

theorem createPaymentIntent_rejects_nonpositive_witness :
    ((createPaymentIntent stripeOk none).response
        = ⟨400, { message := some "Invalid amount" }⟩
      ∧ (createPaymentIntent stripeOk none).calls = [])
    ∧ ((createPaymentIntent stripeOk (some (finite true 5 (-1)))).response
        = ⟨400, { message := some "Invalid amount" }⟩
      ∧ (createPaymentIntent stripeOk (some (finite true 5 (-1)))).calls = []) :=
  ⟨createPaymentIntent_rejects_nonpositive stripeOk none (Or.inl rfl),
   createPaymentIntent_rejects_nonpositive stripeOk (some (finite true 5 (-1)))
     (Or.inr ⟨_, rfl, by simp [LeRat, finiteValue]⟩)⟩

/-- C2 (counterexample): the double nearest to `1.115` is `5021513584518103 · 2⁻⁵²`;
it passes validation and the processor is called with `112`, although half-up
rounding of the exact product `100 · a` is `111`.  The double nearest to `1.005` is
`1131529406376837 · 2⁻⁵⁰`; the processor is called with `100`, although half-up
rounding of `100 · 1.005` is `101`. -/
theorem createPaymentIntent_not_exact_half_up :
    (roundToDouble false 5021513584518103 (-52) = finite false 5021513584518103 (-52)
      ∧ |finiteValue false 5021513584518103 (-52) - 1115 / 1000| < 2 ^ (-53 : ℤ)
      ∧ invalidAmount (some (finite false 5021513584518103 (-52))) = false
      ∧ (createPaymentIntent stripeOk (some (finite false 5021513584518103 (-52)))).calls
          = [⟨finite false 112 0, "inr", true⟩]
      ∧ ⌊100 * finiteValue false 5021513584518103 (-52) + 1 / 2⌋ = 111)
    ∧ (roundToDouble false 1131529406376837 (-50) = finite false 1131529406376837 (-50)
      ∧ |finiteValue false 1131529406376837 (-50) - 1005 / 1000| < 2 ^ (-53 : ℤ)
      ∧ invalidAmount (some (finite false 1131529406376837 (-50))) = false
      ∧ (createPaymentIntent stripeOk (some (finite false 1131529406376837 (-50)))).calls
          = [⟨finite false 100 0, "inr", true⟩]
      ∧ ⌊100 * (1005 / 1000 : ℚ) + 1 / 2⌋ = 101) := by
  have hv : invalidAmount (some (finite false 5021513584518103 (-52))) = false := by
    rw [invalidAmount_eq_false_iff]
    simp only [GeRat, finiteValue]
    norm_num
  have hw : invalidAmount (some (finite false 1131529406376837 (-50))) = false := by
    rw [invalidAmount_eq_false_iff]
    simp only [GeRat, finiteValue]
    norm_num
  refine ⟨⟨by decide, ?_, hv, ?_, ?_⟩, ⟨by decide, ?_, hw, ?_, ?_⟩⟩
  · simp only [finiteValue]
    rw [abs_lt]
    norm_num
  · rw [createPaymentIntent_calls_of_valid _ _ hv]
    decide
  · rw [Int.floor_eq_iff]
    simp only [finiteValue]
    norm_num
  · simp only [finiteValue]
    rw [abs_lt]
    norm_num
  · rw [createPaymentIntent_calls_of_valid _ _ hw]
    decide
  · rw [Int.floor_eq_iff]
    norm_num

/-- C2 (amended): for every numeric amount that passes validation the processor is
called once, with `Math.round` of the double product `amount * 100`; `Math.round`
of a finite double `x` is `⌊x + 1/2⌋`, so whenever the double product is exact the
amount sent is `⌊100 · a + 1/2⌋`; amount `10` is sent as `1000` and `499.5` as
`49950`. -/
theorem createPaymentIntent_amount_sent (stripe : Stripe) (a : JSNumber)
    (h : invalidAmount (some a) = false) :
    (createPaymentIntent stripe (some a)).calls
        = [⟨(a.mul hundred).mathRound, "inr", true⟩]
      ∧ (∀ x : ℚ, (a.mul hundred).toRat? = some x →
          ((a.mul hundred).mathRound).toRat? = some ((⌊x + 1 / 2⌋ : ℤ) : ℚ))
      ∧ (∀ v : ℚ, a.toRat? = some v → (a.mul hundred).toRat? = some (100 * v) →
          ((a.mul hundred).mathRound).toRat? = some ((⌊100 * v + 1 / 2⌋ : ℤ) : ℚ))
      ∧ (createPaymentIntent stripe (some (finite false 10 0))).calls
          = [⟨finite false 1000 0, "inr", true⟩]
      ∧ (createPaymentIntent stripe (some (finite false 999 (-1)))).calls
          = [⟨finite false 49950 0, "inr", true⟩] := by
  have hround : ∀ x : ℚ, (a.mul hundred).toRat? = some x →
      ((a.mul hundred).mathRound).toRat? = some ((⌊x + 1 / 2⌋ : ℤ) : ℚ) := by
    intro x hx
    cases hm : a.mul hundred with
    | nan => rw [hm] at hx; simp [toRat?] at hx
    | infinity s => rw [hm] at hx; simp [toRat?] at hx
    | finite neg mant exp =>
      rw [hm] at hx
      simp only [toRat?, Option.some.injEq] at hx
      rw [mathRound_finite_value, hx]
  have h10 : invalidAmount (some (finite false 10 0)) = false := by
    rw [invalidAmount_eq_false_iff]; simp only [GeRat, finiteValue]; norm_num
  have h499 : invalidAmount (some (finite false 999 (-1))) = false := by
    rw [invalidAmount_eq_false_iff]; simp only [GeRat, finiteValue]; norm_num
  refine ⟨createPaymentIntent_calls_of_valid stripe a h, hround,
    fun v _ hp => hround _ hp, ?_, ?_⟩
  · rw [createPaymentIntent_calls_of_valid _ _ h10]; decide
  · rw [createPaymentIntent_calls_of_valid _ _ h499]; decide

theorem createPaymentIntent_amount_sent_witness :
    invalidAmount (some (finite false 5 (-2))) = false
    ∧ (createPaymentIntent stripeOk (some (finite false 5 (-2)))).calls
        = [⟨finite false 125 0, "inr", true⟩] := by
  have hv : invalidAmount (some (finite false 5 (-2))) = false := by
    rw [invalidAmount_eq_false_iff]; simp only [GeRat, finiteValue]; norm_num
  refine ⟨hv, ?_⟩
  rw [(createPaymentIntent_amount_sent stripeOk (finite false 5 (-2)) hv).1]
  decide

/-- C3 (counterexample): amount `1` is not above the threshold `1`, yet the handler
calls the processor (with `100`) and answers 200. -/
theorem createPaymentIntent_accepts_one :
    ¬ JSNumber.one.GtRat 1
    ∧ (createPaymentIntent stripeOk (some JSNumber.one)).calls
        = [⟨finite false 100 0, "inr", true⟩]
    ∧ (createPaymentIntent stripeOk (some JSNumber.one)).response
        = ⟨200, { clientSecret := some "pi_1_secret_2" }⟩ := by
  have hv : invalidAmount (some JSNumber.one) = false := by
    rw [invalidAmount_eq_false_iff]; simp [GeRat, one, finiteValue]
  refine ⟨by simp [GtRat, one, finiteValue], ?_, ?_⟩
  · rw [createPaymentIntent_calls_of_valid _ _ hv]; decide
  · simp only [createPaymentIntent, hv]; decide

/-- C3 (amended): for an amount that is absent or a number, the handler calls the
processor exactly when the amount is present and at least `1` (`1` included); for
every other amount it answers 400 "Invalid amount" without a processor call. -/
theorem createPaymentIntent_threshold (stripe : Stripe) (amount : Option JSNumber) :
    ((createPaymentIntent stripe amount).calls ≠ []
        ↔ ∃ a, amount = some a ∧ a.GeRat 1)
      ∧ ((¬ ∃ a, amount = some a ∧ a.GeRat 1) →
          (createPaymentIntent stripe amount).response
              = ⟨400, { message := some "Invalid amount" }⟩
            ∧ (createPaymentIntent stripe amount).calls = []) := by
  cases amount with
  | none => simp [createPaymentIntent]
  | some a =>
    by_cases hv : invalidAmount (some a) = false
    · have hge := (invalidAmount_eq_false_iff a).1 hv
      rw [createPaymentIntent_calls_of_valid stripe a hv]
      simp [hge]
    · have hinv : invalidAmount (some a) = true := by simpa using hv
      have hge : ¬ a.GeRat 1 := fun hc => hv ((invalidAmount_eq_false_iff a).2 hc)
      rw [createPaymentIntent_of_invalid stripe (some a) hinv]
      simp [hge]

theorem createPaymentIntent_threshold_witness :
    (createPaymentIntent stripeOk (some (finite false 1 (-1)))).response
        = ⟨400, { message := some "Invalid amount" }⟩
    ∧ (createPaymentIntent stripeOk (some (finite false 1 (-1)))).calls = [] :=
  (createPaymentIntent_threshold stripeOk (some (finite false 1 (-1)))).2
    (by
      rintro ⟨a, ha, hge⟩
      cases ha
      simp only [GeRat, finiteValue] at hge
      norm_num at hge)
theorem ofBits_natBitsAux : ∀ fuel n : ℕ, n ≤ fuel → ofBits (natBitsAux fuel n) = n := by
  intro fuel
  induction fuel with
  | zero => intro n hn; simp [Nat.le_zero.1 hn, natBitsAux, ofBits]
  | succ fuel ih =>
    intro n hn
    by_cases h0 : n = 0
    · simp [h0, natBitsAux, ofBits]
    · have hle : n / 2 ≤ fuel := by omega
      simp only [natBitsAux, h0, if_false, ofBits, ih (n / 2) hle]
      by_cases h2 : n % 2 = 0
      · simp only [h2, if_true]
        have h10 : ¬ ('0' = '1') := by decide
        simp only [h10, if_false]
        omega
      · simp only [h2, if_false, if_true]
        omega

theorem ofBits_natBits (n : ℕ) : ofBits (natBits n) = n :=
  ofBits_natBitsAux n n (le_refl n)

theorem natBitsAux_no_dot : ∀ fuel n : ℕ, ∀ c ∈ natBitsAux fuel n, c ≠ '.' := by
  intro fuel
  induction fuel with
  | zero => intro n c hc; simp [natBitsAux] at hc
  | succ fuel ih =>
    intro n c hc
    by_cases h0 : n = 0
    · simp [natBitsAux, h0] at hc
    · simp only [natBitsAux, h0, if_false, List.mem_cons] at hc
      rcases hc with hc | hc
      · by_cases h2 : n % 2 = 0
        · simp only [h2, if_true] at hc; rw [hc]; decide
        · simp only [h2, if_false] at hc; rw [hc]; decide
      · exact ih _ c hc

theorem natBits_no_dot (n : ℕ) : ∀ c ∈ natBits n, c ≠ '.' :=
  natBitsAux_no_dot n n

theorem splitDot_append (a b : List Char) (ha : ∀ c ∈ a, c ≠ '.') :
    splitDot (a ++ '.' :: b) = some (a, b) := by
  induction a with
  | nil => simp [splitDot]
  | cons c cs ih =>
    have hc : c ≠ '.' := ha c (List.mem_cons_self c cs)
    have hcs : ∀ d ∈ cs, d ≠ '.' := fun d hd => ha d (List.mem_cons_of_mem c hd)
    simp [splitDot, hc, ih hcs]

theorem jwtPlain_codec : jwtPlain.Codec := by
  intro t
  obtain ⟨⟨uid⟩, iat, exp, sig⟩ := t
  constructor
  · intro h
    have hd := congrArg String.data h
    simp [jwtPlain] at hd
  · simp only [jwtPlain]
    rw [splitDot_append _ _ (natBits_no_dot _)]
    simp only
    rw [splitDot_append _ _ (natBits_no_dot _)]
    simp only
    rw [splitDot_append _ _ (natBits_no_dot _)]
    simp only [ofBits_natBits]

theorem Jwt.sign_ne_empty (jwt : Jwt) (hc : jwt.Codec) (payload : JwtPayload)
    (secret : String) (life now : ℕ) : jwt.sign payload secret life now ≠ "" :=
  (hc _).1

theorem Jwt.verify_sign (jwt : Jwt) (hc : jwt.Codec) (payload : JwtPayload)
    (secret : String) (life now : ℕ) (hl : 1 ≤ life) :
    jwt.verify (jwt.sign payload secret life now) secret now = .ok payload := by
  have hx : ¬ now + life ≤ now := by omega
  simp only [Jwt.verify, Jwt.sign, (hc _).2, ne_eq, not_true_eq_false, if_false, hx]

theorem Jwt.verify_sign_expired (jwt : Jwt) (hc : jwt.Codec) (payload : JwtPayload)
    (secret : String) (now : ℕ) :
    jwt.verify (jwt.sign payload secret 0 now) secret now = .error "jwt expired" := by
  simp only [Jwt.verify, Jwt.sign, (hc _).2, ne_eq, not_true_eq_false, if_false,
    Nat.add_zero, le_refl, if_true]

theorem replaceFirst_leading (p t : List Char) (hp : p ≠ []) :
    replaceFirst p [] (p ++ t) = t := by
  cases hs : p ++ t with
  | nil => simp [hp] at hs
  | cons d ds =>
    have h : p.isPrefixOf (d :: ds) = true := by
      rw [← hs, List.isPrefixOf_iff_prefix]
      exact List.prefix_append _ _
    rw [replaceFirst, if_pos h, List.nil_append, ← hs, List.drop_left]

theorem replaceFirst_absent (p r : List Char) (hp : p ≠ []) :
    ∀ s : List Char, ¬ p <:+: s → replaceFirst p r s = s := by
  intro s
  induction s with
  | nil => intro _; simp [replaceFirst, hp]
  | cons c cs ih =>
    intro h
    have h1 : (p.isPrefixOf (c :: cs)) = false := by
      cases hpre : p.isPrefixOf (c :: cs) with
      | false => rfl
      | true =>
        exact absurd ((List.isPrefixOf_iff_prefix.1 hpre).isInfix) h
    have h2 : ¬ p <:+: cs := fun hc => h (hc.trans (List.suffix_cons c cs).isInfix)
    simp [replaceFirst, h1, ih h2]

theorem extractToken_bearer (t : String) :
    extractToken (some ("Bearer " ++ t)) = some t := by
  simp only [extractToken, Option.map_some', jsReplace, String.data_append]
  rw [replaceFirst_leading _ _ (by decide)]

theorem extractToken_absent (h : String) (hn : ¬ "Bearer ".data <:+: h.data) :
    extractToken (some h) = some h := by
  simp only [extractToken, Option.map_some', jsReplace]
  rw [replaceFirst_absent _ _ (by decide) _ hn]

theorem findOne_some {users : List UserDoc} {email : String} {u : UserDoc}
    (h : findOne users email = some u) : u ∈ users ∧ u.email = email := by
  unfold findOne at h
  exact ⟨List.mem_of_find?_eq_some h, by simpa using List.find?_some h⟩

theorem findOne_ne_none_of_mem {users : List UserDoc} {u : UserDoc} (h : u ∈ users) :
    findOne users u.email ≠ none := by
  unfold findOne
  intro hc
  rw [List.find?_eq_none] at hc
  simpa using hc u h

theorem findOne_append_new {users : List UserDoc} {email : String} {u : UserDoc}
    (h : findOne users email = none) (hu : u.email = email) :
    findOne (users ++ [u]) email = some u := by
  unfold findOne at h ⊢
  rw [List.find?_append, h]
  simp [hu]

theorem findById_some {mongoose : Mongoose} {users : List UserDoc} {id : String}
    {u : UserDoc} (h : findById mongoose users id = .ok (some u)) : u ∈ users ∧ u._id = id := by
  unfold findById at h
  split at h
  · simp only [Except.ok.injEq] at h
    exact ⟨List.mem_of_find?_eq_some h, by simpa using List.find?_some h⟩
  · cases h

theorem auth_eq (jwt : Jwt) (mongoose : Mongoose) (env : Env) (users : List UserDoc) (now : ℕ)
    (token : String) (header : Option String) (hx : extractToken header = some token)
    (hne : token ≠ "") :
    auth jwt mongoose env users now header
      = match jwt.verify token (jwtSecret env) now with
        | .error _ => .respond ⟨401, { message := some "Invalid token" }⟩
        | .ok decoded =>
          match findById mongoose users decoded.userId with
          | .error _ => .respond ⟨401, { message := some "Invalid token" }⟩
          | .ok none => .respond ⟨401, { message := some "User not found" }⟩
          | .ok (some user) => .next (selectMinusPassword user) := by
  simp only [auth, hx, hne, if_false]

theorem auth_status (jwt : Jwt) (mongoose : Mongoose) (env : Env) (users : List UserDoc)
    (now : ℕ) (header : Option String) (r : Response)
    (h : auth jwt mongoose env users now header = .respond r) : r.status = 401 := by
  unfold auth at h
  split at h
  · cases h; rfl
  · split at h
    · cases h; rfl
    · split at h
      · cases h; rfl
      · split at h
        · cases h; rfl
        · cases h; rfl
        · cases h

/-- C4 (counterexample): with no header the body says "No token provided", with a
header that is not a bearer token or a bearer token signed under another secret
it says "Invalid token", and with a valid token whose subject is an ObjectId that
is not stored it says "User not found": the bodies tell the cases apart. -/
theorem auth_failure_bodies_differ :
    auth jwtPlain mongooseHex envDefault [] 9 none
        = .respond ⟨401, { message := some "No token provided" }⟩
    ∧ auth jwtPlain mongooseHex envDefault [] 9 (some "Basic dXNlcjpwdw==")
        = .respond ⟨401, { message := some "Invalid token" }⟩
    ∧ auth jwtPlain mongooseHex envDefault [] 9
          (some ("Bearer " ++ jwtPlain.sign ⟨aliceId⟩ "other-secret" 604800 5))
        = .respond ⟨401, { message := some "Invalid token" }⟩
    ∧ mongooseHex.isObjectId aliceId = true
    ∧ auth jwtPlain mongooseHex envDefault [] 9 (some ("Bearer " ++ aliceToken))
        = .respond ⟨401, { message := some "User not found" }⟩
    ∧ auth jwtPlain mongooseHex envDefault [] 9 none
        ≠ auth jwtPlain mongooseHex envDefault [] 9 (some ("Bearer " ++ aliceToken))
    ∧ auth jwtPlain mongooseHex envDefault [] 9
          (some ("Bearer " ++ jwtPlain.sign ⟨aliceId⟩ "other-secret" 604800 5))
        ≠ auth jwtPlain mongooseHex envDefault [] 9 (some ("Bearer " ++ aliceToken)) := by
  decide

/-- C4 (amended): every response of the auth middleware has status 401; its message
is "No token provided" when the header is absent or leaves an empty token, "Invalid
token" when the token fails verification or the identity lookup throws (the subject
does not cast to an ObjectId), and "User not found" when the token verifies and the
lookup finds no identity with its subject. -/
theorem auth_failure_responses (jwt : Jwt) (mongoose : Mongoose) (env : Env)
    (users : List UserDoc) (now : ℕ) :
    (∀ header r, auth jwt mongoose env users now header = .respond r → r.status = 401)
    ∧ auth jwt mongoose env users now none
        = .respond ⟨401, { message := some "No token provided" }⟩
    ∧ (∀ h, extractToken (some h) = some "" →
        auth jwt mongoose env users now (some h)
          = .respond ⟨401, { message := some "No token provided" }⟩)
    ∧ (∀ h token e, extractToken (some h) = some token → token ≠ "" →
        jwt.verify token (jwtSecret env) now = .error e →
        auth jwt mongoose env users now (some h)
          = .respond ⟨401, { message := some "Invalid token" }⟩)
    ∧ (∀ h token decoded e, extractToken (some h) = some token → token ≠ "" →
        jwt.verify token (jwtSecret env) now = .ok decoded →
        findById mongoose users decoded.userId = .error e →
        auth jwt mongoose env users now (some h)
          = .respond ⟨401, { message := some "Invalid token" }⟩)
    ∧ (∀ h token decoded, extractToken (some h) = some token → token ≠ "" →
        jwt.verify token (jwtSecret env) now = .ok decoded →
        findById mongoose users decoded.userId = .ok none →
        auth jwt mongoose env users now (some h)
          = .respond ⟨401, { message := some "User not found" }⟩) := by
  refine ⟨fun header r h => auth_status jwt mongoose env users now header r h, rfl,
    ?_, ?_, ?_, ?_⟩
  · intro h hx
    simp only [auth, hx, if_true]
  · intro h token e hx hne hv
    rw [auth_eq jwt mongoose env users now token (some h) hx hne, hv]
  · intro h token decoded e hx hne hv hf
    rw [auth_eq jwt mongoose env users now token (some h) hx hne, hv]
    simp only [hf]
  · intro h token decoded hx hne hv hf
    rw [auth_eq jwt mongoose env users now token (some h) hx hne, hv]
    simp only [hf]

theorem auth_failure_responses_witness :
    (auth jwtPlain mongooseHex envDefault [] 9 (some ("Bearer " ++ aliceToken))
        = .respond ⟨401, { message := some "User not found" }⟩)
    ∧ (auth jwtPlain mongooseHex envDefault [] 9
          (some ("Bearer " ++ jwtPlain.sign ⟨"u1"⟩ "fallback-secret" 604800 5))
        = .respond ⟨401, { message := some "Invalid token" }⟩)
    ∧ (⟨401, { message := some "User not found" }⟩ : Response).status = 401 :=
  ⟨(auth_failure_responses jwtPlain mongooseHex envDefault [] 9).2.2.2.2.2
      ("Bearer " ++ aliceToken) aliceToken ⟨aliceId⟩ (extractToken_bearer aliceToken)
      (by decide) (by rfl) (by rfl),
   (auth_failure_responses jwtPlain mongooseHex envDefault [] 9).2.2.2.2.1
      ("Bearer " ++ jwtPlain.sign ⟨"u1"⟩ "fallback-secret" 604800 5)
      (jwtPlain.sign ⟨"u1"⟩ "fallback-secret" 604800 5) ⟨"u1"⟩ "CastError"
      (extractToken_bearer _) (by decide) (by rfl) (by rfl),
   (auth_failure_responses jwtPlain mongooseHex envDefault [] 9).1
      (some ("Bearer " ++ aliceToken)) _ (by decide)⟩

/-- C9: the auth middleware calls `next()` exactly when the header is present, the
extracted token is non-empty and verifies, and a stored identity has the token's
subject as `_id`; `req.user` is then that identity without its password; in every
other case the middleware answers 401 and `next()` is not called.  Behind it,
`GET /api/auth/me` answers 200 with that password-free identity. -/
theorem auth_next_iff (jwt : Jwt) (mongoose : Mongoose) (env : Env) (users : List UserDoc)
    (now : ℕ) (header : Option String) :
    (∀ user, auth jwt mongoose env users now header = .next user ↔
        ∃ h token decoded stored, header = some h ∧ extractToken header = some token
          ∧ token ≠ "" ∧ jwt.verify token (jwtSecret env) now = .ok decoded
          ∧ findById mongoose users decoded.userId = .ok (some stored)
          ∧ stored ∈ users ∧ stored._id = decoded.userId
          ∧ user = { stored with password := none })
    ∧ ((∀ user, auth jwt mongoose env users now header ≠ .next user) →
        ∃ r, auth jwt mongoose env users now header = .respond r ∧ r.status = 401)
    ∧ (∀ user, auth jwt mongoose env users now header = .next user →
        user.password = none
          ∧ me jwt mongoose env users now header = ⟨200, { user := some user }⟩) := by
  have key : ∀ user, auth jwt mongoose env users now header = .next user →
      ∃ h token decoded stored, header = some h ∧ extractToken header = some token
          ∧ token ≠ "" ∧ jwt.verify token (jwtSecret env) now = .ok decoded
          ∧ findById mongoose users decoded.userId = .ok (some stored)
          ∧ stored ∈ users ∧ stored._id = decoded.userId
          ∧ user = { stored with password := none } := by
    intro user hn
    cases header with
    | none => simp [auth, extractToken] at hn
    | some h =>
      by_cases hne : jsReplace h "Bearer " "" = ""
      · simp [auth, extractToken, hne] at hn
      · have hx : extractToken (some h) = some (jsReplace h "Bearer " "") := rfl
        rw [auth_eq jwt mongoose env users now _ (some h) hx hne] at hn
        cases hv : jwt.verify (jsReplace h "Bearer " "") (jwtSecret env) now with
        | error e => rw [hv] at hn; cases hn
        | ok decoded =>
          rw [hv] at hn
          cases hf : findById mongoose users decoded.userId with
          | error e => simp only [hf] at hn; cases hn
          | ok found =>
            cases found with
            | none => simp only [hf] at hn; cases hn
            | some stored =>
              simp only [hf] at hn
              have hs := findById_some hf
              refine ⟨h, _, decoded, stored, rfl, hx, hne, hv, hf, hs.1, hs.2, ?_⟩
              cases hn
              rfl
  refine ⟨fun user => ⟨key user, ?_⟩, ?_, ?_⟩
  · rintro ⟨h, token, decoded, stored, rfl, hx, hne, hv, hf, -, -, rfl⟩
    rw [auth_eq jwt mongoose env users now token (some h) hx hne, hv]
    simp only [hf]
    rfl
  · intro hno
    cases ha : auth jwt mongoose env users now header with
    | respond r => exact ⟨r, rfl, auth_status jwt mongoose env users now header r ha⟩
    | next user => exact absurd ha (hno user)
  · intro user hn
    obtain ⟨h, token, decoded, stored, -, -, -, -, -, -, -, rfl⟩ := key user hn
    refine ⟨rfl, ?_⟩
    simp only [me, hn]

theorem auth_next_iff_witness :
    auth jwtPlain mongooseHex envDefault [aliceDoc] 9 (some ("Bearer " ++ aliceToken))
        = .next { aliceDoc with password := none }
    ∧ me jwtPlain mongooseHex envDefault [aliceDoc] 9 (some ("Bearer " ++ aliceToken))
        = ⟨200, { user := some { aliceDoc with password := none } }⟩
    ∧ ∃ r, auth jwtPlain mongooseHex envDefault [aliceDoc] 9 none = .respond r
        ∧ r.status = 401 :=
  ⟨by decide,
   ((auth_next_iff jwtPlain mongooseHex envDefault [aliceDoc] 9
      (some ("Bearer " ++ aliceToken))).2.2 _ (by decide)).2,
   (auth_next_iff jwtPlain mongooseHex envDefault [aliceDoc] 9 none).2.1
     (fun user h => by simp [auth, extractToken] at h)⟩

/-- C10 (counterexample): the header that is a bare token does not begin with
`Bearer `, yet the middleware takes it whole as the token, verifies it and calls
`next()`. -/
theorem auth_accepts_bare_token :
    ¬ "Bearer ".data <+: aliceToken.data
    ∧ extractToken (some aliceToken) = some aliceToken
    ∧ auth jwtPlain mongooseHex envDefault [aliceDoc] 9 (some aliceToken)
        = .next { aliceDoc with password := none } := by
  decide

/-- C10 (amended): the token is the header with its first occurrence of `Bearer `
removed, the whole header when it contains none; the middleware answers 401
without calling `next()` whenever that token is empty, fails verification or names
no stored identity; and the token extracted from `Bearer ` followed by `t` is `t`. -/
theorem auth_header_token (jwt : Jwt) (mongoose : Mongoose) (env : Env)
    (users : List UserDoc) (now : ℕ) (h t : String) :
    extractToken (some h) = some (jsReplace h "Bearer " "")
    ∧ (¬ "Bearer ".data <:+: h.data → extractToken (some h) = some h)
    ∧ extractToken (some ("Bearer " ++ t)) = some t
    ∧ (¬ "Bearer ".data <:+: h.data →
        auth jwt mongoose env users now (some h)
          = auth jwt mongoose env users now (some ("Bearer " ++ h)))
    ∧ ((jsReplace h "Bearer " "" = ""
          ∨ (∃ e, jwt.verify (jsReplace h "Bearer " "") (jwtSecret env) now = .error e)
          ∨ (∃ decoded, jwt.verify (jsReplace h "Bearer " "") (jwtSecret env) now
                = .ok decoded
              ∧ ∀ stored, findById mongoose users decoded.userId ≠ .ok (some stored))) →
        ∃ r, auth jwt mongoose env users now (some h) = .respond r ∧ r.status = 401) := by
  refine ⟨rfl, extractToken_absent h, extractToken_bearer t, ?_, ?_⟩
  · intro hn
    simp only [auth, extractToken_absent h hn, extractToken_bearer h]
  intro hc
  by_cases hne : jsReplace h "Bearer " "" = ""
  · refine ⟨⟨401, { message := some "No token provided" }⟩, ?_, rfl⟩
    simp only [auth, extractToken, Option.map_some', hne, if_true]
  · rw [auth_eq jwt mongoose env users now _ (some h) rfl hne]
    rcases hc with hc | ⟨e, he⟩ | ⟨decoded, hd, hf⟩
    · exact absurd hc hne
    · rw [he]; exact ⟨_, rfl, rfl⟩
    · rw [hd]
      simp only []
      cases hfind : findById mongoose users decoded.userId with
      | error e => exact ⟨_, rfl, rfl⟩
      | ok found =>
        cases found with
        | none => exact ⟨_, rfl, rfl⟩
        | some stored => exact absurd hfind (hf stored)

theorem auth_header_token_witness :
    extractToken (some ("Bearer " ++ aliceToken)) = some aliceToken
    ∧ ∃ r, auth jwtPlain mongooseHex envDefault [aliceDoc] 9 (some "Basic dXNlcjpwdw==")
          = .respond r
        ∧ r.status = 401 :=
  ⟨(auth_header_token jwtPlain mongooseHex envDefault [aliceDoc] 9 "" aliceToken).2.2.1,
   (auth_header_token jwtPlain mongooseHex envDefault [aliceDoc] 9
      "Basic dXNlcjpwdw==" "").2.2.2.2
     (Or.inr (Or.inl ⟨"jwt malformed", by rfl⟩))⟩

theorem signToken_ok {jwt : Jwt} {env : Env} {uid : String} {now : ℕ} {tok : String}
    (h : signToken jwt env uid now = .ok tok) :
    ∃ life, jwt.timespan (jwtExpiresIn env) = some life
      ∧ tok = jwt.sign ⟨uid⟩ (jwtSecret env) life now := by
  unfold signToken at h
  cases ht : jwt.timespan (jwtExpiresIn env) with
  | none => rw [ht] at h; cases h
  | some life =>
    rw [ht] at h
    simp only [Except.ok.injEq] at h
    exact ⟨life, rfl, h.symm⟩

theorem save_of_valid (bcrypt : Bcrypt) (salt : String) (now : ℕ) (users : List UserDoc)
    (newId name email password phone : String) (userType : Option String)
    (hv : validate (newUser newId name email password phone userType) = true) :
    save bcrypt salt now users (newUser newId name email password phone userType)
      = .ok ({ newUser newId name email password phone userType with
                password := some (bcrypt.hash password 12 salt),
                createdAt := now, updatedAt := now },
             users ++ [{ newUser newId name email password phone userType with
                password := some (bcrypt.hash password 12 salt),
                createdAt := now, updatedAt := now }]) := by
  unfold save
  rw [hv]
  simp [preSave, newUser]

theorem save_of_invalid (bcrypt : Bcrypt) (salt : String) (now : ℕ) (users : List UserDoc)
    (doc : UserDoc) (hv : ¬ validate doc = true) :
    save bcrypt salt now users doc = .error "ValidationError" := by
  unfold save
  simp [hv]

theorem register_created (jwt : Jwt) (bcrypt : Bcrypt) (env : Env) (users : List UserDoc)
    (now : ℕ) (newId salt : String) (body : RegisterBody)
    (h : (register jwt bcrypt env users now newId salt body).response.status = 201) :
    ∃ name email password phone token,
      body.name = some name ∧ body.email = some email ∧ body.password = some password
      ∧ body.phone = some phone
      ∧ name ≠ "" ∧ email ≠ "" ∧ password ≠ "" ∧ phone ≠ ""
      ∧ findOne users email = none
      ∧ validate (newUser newId name email password phone body.userType) = true
      ∧ signToken jwt env newId now = .ok token
      ∧ register jwt bcrypt env users now newId salt body
          = ⟨⟨201, { message := some "User registered successfully", token := some token,
                     user := some { newUser newId name email password phone body.userType with
                       password := some (bcrypt.hash password 12 salt),
                       createdAt := now, updatedAt := now } }⟩,
             users ++ [{ newUser newId name email password phone body.userType with
                       password := some (bcrypt.hash password 12 salt),
                       createdAt := now, updatedAt := now }]⟩ := by
  obtain ⟨name, email, password, phone, userType⟩ := body
  cases name with
  | none => simp [register] at h
  | some name =>
  cases email with
  | none => simp [register] at h
  | some email =>
  cases password with
  | none => simp [register] at h
  | some password =>
  cases phone with
  | none => simp [register] at h
  | some phone =>
    by_cases hf : (falsy (some name) || falsy (some email) || falsy (some password)
        || falsy (some phone)) = true
    · simp [register, hf] at h
    · have hf' := hf
      simp only [falsy, Bool.or_eq_true, decide_eq_true_eq, not_or] at hf'
      obtain ⟨⟨⟨hn, he⟩, hp⟩, hph⟩ := hf'
      cases hfo : findOne users email with
      | some u => simp [register, hf, hfo] at h
      | none =>
        by_cases hv : validate (newUser newId name email password phone userType) = true
        · cases hs : signToken jwt env newId now with
          | error e =>
            simp only [register, hf, hfo, save_of_valid _ _ _ _ _ _ _ _ _ _ hv] at h
            simp [newUser, hs] at h
          | ok token =>
            refine ⟨name, email, password, phone, token, rfl, rfl, rfl, rfl, hn, he, hp, hph,
              hfo, hv, rfl, ?_⟩
            simp only [register, hf, hfo, save_of_valid _ _ _ _ _ _ _ _ _ _ hv]
            simp [newUser, hs]
        · simp [register, hf, hfo, save_of_invalid _ _ _ _ _ hv] at h
theorem register_token_status (jwt : Jwt) (bcrypt : Bcrypt) (env : Env) (users : List UserDoc)
    (now : ℕ) (newId salt : String) (body : RegisterBody) (tok : String)
    (h : (register jwt bcrypt env users now newId salt body).response.body.token = some tok) :
    (register jwt bcrypt env users now newId salt body).response.status = 201 := by
  unfold register at h ⊢
  repeat' split at h
  all_goals first
    | (simp at h; done)
    | skip
  all_goals simp_all

theorem login_token (jwt : Jwt) (bcrypt : Bcrypt) (env : Env) (users : List UserDoc)
    (now : ℕ) (body : LoginBody) (tok : String)
    (h : (login jwt bcrypt env users now body).body.token = some tok) :
    ∃ user, (login jwt bcrypt env users now body).body.user = some user
      ∧ (login jwt bcrypt env users now body).status = 200
      ∧ signToken jwt env user._id now = .ok tok := by
  unfold login at h ⊢
  repeat' split at h
  all_goals first
    | (simp at h; done)
    | skip
  all_goals simp_all

theorem login_of_match (jwt : Jwt) (bcrypt : Bcrypt) (env : Env) (users : List UserDoc)
    (now : ℕ) (doc : UserDoc) (email p hash : String) (life : ℕ)
    (hfind : findOne users email = some doc) (hpw : doc.password = some hash)
    (hcmp : bcrypt.compare p hash = true)
    (hl : jwt.timespan (jwtExpiresIn env) = some life) :
    login jwt bcrypt env users now ⟨some email, some p⟩
      = ⟨200, { message := some "Login successful",
                token := some (jwt.sign ⟨doc._id⟩ (jwtSecret env) life now),
                user := some doc }⟩ := by
  have hb : (some email).bind (findOne users) = some doc := hfind
  simp only [login, hb, comparePassword, hpw, hcmp, signToken, hl]

/-- C5 (the code at a complete first registration): the handler answers 201 with a
token and the saved document, whose `password` field is the bcrypt hash of the
plaintext; the sibling path `auth` (behind `GET /api/auth/me`) returns the same
identity without the field. -/
theorem register_response_has_password_hash :
    (register jwtPlain bcryptPlain envDefault [] 5 aliceId "salt" aliceBody).response
        = ⟨201, { message := some "User registered successfully",
                  token := some aliceToken, user := some aliceDoc }⟩
    ∧ aliceDoc.password = some (bcryptPlain.hash "s3cret" 12 "salt")
    ∧ aliceDoc.password ≠ none
    ∧ me jwtPlain mongooseHex envDefault
          (register jwtPlain bcryptPlain envDefault [] 5 aliceId "salt" aliceBody).users 9
          (some ("Bearer " ++ aliceToken))
        = ⟨200, { user := some { aliceDoc with password := none } }⟩ := by
  decide

/-- C6 (counterexample): a register request that reuses a stored email but has no
`name` is answered 400 "All fields are required", not "User already exists". -/
theorem register_duplicate_missing_field :
    findOne [aliceDoc] "alice@example.com" = some aliceDoc
    ∧ (register jwtPlain bcryptPlain envDefault [aliceDoc] 7 "65a1b2c3d4e5f60718293a4c" "salt"
          { aliceBody with name := none }).response
        = ⟨400, { message := some "All fields are required" }⟩
    ∧ (register jwtPlain bcryptPlain envDefault [aliceDoc] 7 "65a1b2c3d4e5f60718293a4c" "salt"
          { aliceBody with name := none }).response
        ≠ ⟨400, { message := some "User already exists" }⟩ := by
  decide

/-- C6 (amended): a register request whose email is the email of a stored identity
is answered 400 without a token and leaves the collection unchanged; the message is
"User already exists" when name, email, password and phone are all present and
non-empty, and "All fields are required" otherwise. -/
theorem register_duplicate_rejected (jwt : Jwt) (bcrypt : Bcrypt) (env : Env)
    (users : List UserDoc) (now : ℕ) (newId salt : String) (body : RegisterBody)
    (u : UserDoc) (hu : u ∈ users) (he : body.email = some u.email) :
    (register jwt bcrypt env users now newId salt body).response.status = 400
    ∧ (register jwt bcrypt env users now newId salt body).response.body.token = none
    ∧ (register jwt bcrypt env users now newId salt body).users = users
    ∧ ((falsy body.name || falsy body.email || falsy body.password || falsy body.phone)
          = false →
        (register jwt bcrypt env users now newId salt body).response
          = ⟨400, { message := some "User already exists" }⟩)
    ∧ ((falsy body.name || falsy body.email || falsy body.password || falsy body.phone)
          = true →
        (register jwt bcrypt env users now newId salt body).response
          = ⟨400, { message := some "All fields are required" }⟩) := by
  obtain ⟨name, email, password, phone, userType⟩ := body
  simp only at he
  subst he
  have hfo := findOne_ne_none_of_mem hu
  cases name with
  | none => simp [register, falsy]
  | some name =>
  cases password with
  | none => simp [register, falsy]
  | some password =>
  cases phone with
  | none => simp [register, falsy]
  | some phone =>
    by_cases hf : (falsy (some name) || falsy (some u.email) || falsy (some password)
        || falsy (some phone)) = true
    · simp [register, hf]
    · cases hfo' : findOne users u.email with
      | none => exact absurd hfo' hfo
      | some v => simp [register, hf, hfo']

theorem register_duplicate_rejected_witness :
    (register jwtPlain bcryptPlain envDefault [aliceDoc] 7 "65a1b2c3d4e5f60718293a4c" "salt" aliceBody).response
        = ⟨400, { message := some "User already exists" }⟩
    ∧ (register jwtPlain bcryptPlain envDefault [aliceDoc] 7 "65a1b2c3d4e5f60718293a4c" "salt" aliceBody).users
        = [aliceDoc] :=
  ⟨(register_duplicate_rejected jwtPlain bcryptPlain envDefault [aliceDoc] 7 "65a1b2c3d4e5f60718293a4c" "salt"
      aliceBody aliceDoc (by decide) (by decide)).2.2.2.1 (by decide),
   (register_duplicate_rejected jwtPlain bcryptPlain envDefault [aliceDoc] 7 "65a1b2c3d4e5f60718293a4c" "salt"
      aliceBody aliceDoc (by decide) (by decide)).2.2.1⟩

theorem bcryptPlain_correct : bcryptPlain.Correct where
  compare_hash := by intro data rounds salt; simp [bcryptPlain]
  hash_ne := by
    intro data rounds salt h
    have hl := congrArg String.length h
    simp [bcryptPlain, String.length_append] at hl
    exact absurd hl (by decide)

/-- C7 (counterexample): with `JWT_EXPIRES_IN=60` the lifetime is sixty milliseconds,
no whole second; the register handler answers 201 with a token whose `exp` is its
`iat`, and the middleware, given that token at the same instant, answers 401
"Invalid token". -/
theorem issued_token_expired_at_once :
    jwtExpiresIn envShort = "60"
    ∧ jwtPlain.timespan "60" = some 0
    ∧ (register jwtPlain bcryptPlain envShort [] 5 aliceId "salt" aliceBody).response
        = ⟨201, { message := some "User registered successfully",
                  token := some (jwtPlain.sign ⟨aliceId⟩ "fallback-secret" 0 5),
                  user := some aliceDoc }⟩
    ∧ jwtPlain.decode (jwtPlain.sign ⟨aliceId⟩ "fallback-secret" 0 5)
        = some ⟨⟨aliceId⟩, 5, 5, jwtPlain.mac "fallback-secret" ⟨aliceId⟩ 5 5⟩
    ∧ jwtPlain.verify (jwtPlain.sign ⟨aliceId⟩ "fallback-secret" 0 5) (jwtSecret envShort) 5
        = .error "jwt expired"
    ∧ auth jwtPlain mongooseHex envShort
          (register jwtPlain bcryptPlain envShort [] 5 aliceId "salt" aliceBody).users 5
          (some ("Bearer " ++ jwtPlain.sign ⟨aliceId⟩ "fallback-secret" 0 5))
        = .respond ⟨401, { message := some "Invalid token" }⟩ := by
  refine ⟨by decide, by decide, by decide, by decide, ?_, by decide⟩
  exact Jwt.verify_sign_expired jwtPlain jwtPlain_codec _ _ _

/-- C7 (amended): a token in a register or login response is the one signed for the
`_id` of the user in that response.  When the lifetime in effect is at least one
second, such a token verifies at the instant of signing under the middleware's
secret with that `_id` as subject, and the middleware, given `Bearer ` followed by
the token, looks up exactly that `_id`.  When the lifetime in effect is under one
second, the token is expired at the instant of signing and the middleware answers
401 "Invalid token". -/
theorem issued_token_validates (jwt : Jwt) (bcrypt : Bcrypt) (mongoose : Mongoose)
    (env : Env) (now : ℕ) (hc : jwt.Codec) :
    (∀ users newId salt body tok,
        (register jwt bcrypt env users now newId salt body).response.body.token = some tok →
        ∃ user, (register jwt bcrypt env users now newId salt body).response.body.user
              = some user
          ∧ signToken jwt env user._id now = .ok tok)
    ∧ (∀ users body tok,
        (login jwt bcrypt env users now body).body.token = some tok →
        ∃ user, (login jwt bcrypt env users now body).body.user = some user
          ∧ signToken jwt env user._id now = .ok tok)
    ∧ (∀ life, jwt.timespan (jwtExpiresIn env) = some life → 1 ≤ life →
        ∀ uid tok, signToken jwt env uid now = .ok tok →
          jwt.verify tok (jwtSecret env) now = .ok ⟨uid⟩
          ∧ ∀ users, auth jwt mongoose env users now (some ("Bearer " ++ tok))
              = match findById mongoose users uid with
                | .error _ => .respond ⟨401, { message := some "Invalid token" }⟩
                | .ok none => .respond ⟨401, { message := some "User not found" }⟩
                | .ok (some user) => .next (selectMinusPassword user))
    ∧ (jwt.timespan (jwtExpiresIn env) = some 0 →
        ∀ uid tok, signToken jwt env uid now = .ok tok →
          jwt.verify tok (jwtSecret env) now = .error "jwt expired"
          ∧ ∀ users, auth jwt mongoose env users now (some ("Bearer " ++ tok))
              = .respond ⟨401, { message := some "Invalid token" }⟩) := by
  refine ⟨?_, ?_, ?_, ?_⟩
  · intro users newId salt body tok ht
    have hst := register_token_status jwt bcrypt env users now newId salt body tok ht
    obtain ⟨name, email, password, phone, token, -, -, -, -, -, -, -, -, -, -, hs, hr⟩ :=
      register_created jwt bcrypt env users now newId salt body hst
    rw [hr] at ht ⊢
    simp only [Option.some.injEq] at ht
    subst ht
    exact ⟨_, rfl, hs⟩
  · intro users body tok ht
    obtain ⟨user, hu, -, hs⟩ := login_token jwt bcrypt env users now body tok ht
    exact ⟨user, hu, hs⟩
  · intro life hl hpos uid tok hs
    obtain ⟨life', hl', rfl⟩ := signToken_ok hs
    rw [hl] at hl'
    simp only [Option.some.injEq] at hl'
    subst hl'
    have hv := Jwt.verify_sign jwt hc ⟨uid⟩ (jwtSecret env) life now hpos
    refine ⟨hv, fun users => ?_⟩
    rw [auth_eq jwt mongoose env users now _ _ (extractToken_bearer _)
      (Jwt.sign_ne_empty jwt hc _ _ _ _), hv]
  · intro hl uid tok hs
    obtain ⟨life', hl', rfl⟩ := signToken_ok hs
    rw [hl] at hl'
    simp only [Option.some.injEq] at hl'
    subst hl'
    have hv := Jwt.verify_sign_expired jwt hc ⟨uid⟩ (jwtSecret env) now
    refine ⟨hv, fun users => ?_⟩
    rw [auth_eq jwt mongoose env users now _ _ (extractToken_bearer _)
      (Jwt.sign_ne_empty jwt hc _ _ _ _), hv]

theorem issued_token_validates_witness :
    jwtPlain.verify aliceToken (jwtSecret envDefault) 5 = .ok ⟨aliceId⟩
    ∧ auth jwtPlain mongooseHex envDefault [aliceDoc] 5 (some ("Bearer " ++ aliceToken))
        = .next { aliceDoc with password := none }
    ∧ ∃ user, (register jwtPlain bcryptPlain envDefault [] 5 aliceId "salt"
            aliceBody).response.body.user = some user
        ∧ signToken jwtPlain envDefault user._id 5 = .ok aliceToken :=
  ⟨((issued_token_validates jwtPlain bcryptPlain mongooseHex envDefault 5
      jwtPlain_codec).2.2.1 604800 (by decide) (by decide) aliceId aliceToken (by rfl)).1,
   (((issued_token_validates jwtPlain bcryptPlain mongooseHex envDefault 5
      jwtPlain_codec).2.2.1 604800 (by decide) (by decide) aliceId aliceToken
      (by rfl)).2 [aliceDoc]).trans (by decide),
   (issued_token_validates jwtPlain bcryptPlain mongooseHex envDefault 5
      jwtPlain_codec).1 [] aliceId "salt" aliceBody aliceToken (by decide)⟩

/-- C8: when `bcryptjs` meets its contract, after a registration answered 201 for
email `email` and password `p` the document found by `email` stores the hash of
`p` and not `p`, `comparePassword(p)` on it is true, and a login with `email` and
`p` is answered 200 with a token. -/
theorem registered_password_hashed (jwt : Jwt) (bcrypt : Bcrypt) (env : Env)
    (users : List UserDoc) (now : ℕ) (newId salt : String) (body : RegisterBody)
    (email p : String) (hb : bcrypt.Correct)
    (he : body.email = some email) (hp : body.password = some p)
    (hreg : (register jwt bcrypt env users now newId salt body).response.status = 201) :
    findOne users email = none
    ∧ ∃ doc, findOne (register jwt bcrypt env users now newId salt body).users email = some doc
      ∧ doc.password = some (bcrypt.hash p 12 salt)
      ∧ doc.password ≠ some p
      ∧ comparePassword bcrypt doc (some p) = .ok true
      ∧ ∀ now', ∃ token,
          login jwt bcrypt env (register jwt bcrypt env users now newId salt body).users now'
              ⟨some email, some p⟩
            = ⟨200, { message := some "Login successful", token := some token,
                      user := some doc }⟩ := by
  obtain ⟨name, email', password, phone, token, -, he', hp', -, -, -, -, -, hfo, -, hs, hr⟩ :=
    register_created jwt bcrypt env users now newId salt body hreg
  rw [he] at he'
  rw [hp] at hp'
  simp only [Option.some.injEq] at he' hp'
  subst he' hp'
  obtain ⟨life, hl, -⟩ := signToken_ok hs
  rw [hr]
  have hfind : findOne (users ++ [{ newUser newId name email p phone body.userType with
        password := some (bcrypt.hash p 12 salt), createdAt := now, updatedAt := now }]) email
      = some { newUser newId name email p phone body.userType with
        password := some (bcrypt.hash p 12 salt), createdAt := now, updatedAt := now } :=
    findOne_append_new hfo (by simp [newUser])
  refine ⟨hfo, _, hfind, rfl, ?_, ?_, ?_⟩
  · simp only [ne_eq, Option.some.injEq]
    exact hb.hash_ne p 12 salt
  · simp [comparePassword, hb.compare_hash]
  · intro now'
    exact ⟨_, login_of_match jwt bcrypt env _ now' _ email p _ life hfind rfl
      (hb.compare_hash p 12 salt) hl⟩

theorem registered_password_hashed_witness :
    ∃ doc, findOne (register jwtPlain bcryptPlain envDefault [] 5 aliceId "salt" aliceBody).users
          "alice@example.com" = some doc
      ∧ doc.password = some (bcryptPlain.hash "s3cret" 12 "salt")
      ∧ doc.password ≠ some "s3cret"
      ∧ comparePassword bcryptPlain doc (some "s3cret") = .ok true
      ∧ ∀ now', ∃ token,
          login jwtPlain bcryptPlain envDefault
              (register jwtPlain bcryptPlain envDefault [] 5 aliceId "salt" aliceBody).users now'
              ⟨some "alice@example.com", some "s3cret"⟩
            = ⟨200, { message := some "Login successful", token := some token,
                      user := some doc }⟩ :=
  (registered_password_hashed jwtPlain bcryptPlain envDefault [] 5 aliceId "salt" aliceBody
    "alice@example.com" "s3cret" bcryptPlain_correct (by decide) (by decide) (by decide)).2


end CareNest
